import Mathlib

/-!
Shallow embedding of the Tryton `sale_payment` module (file `sale.py`) and
proofs about it.

Conventions of the embedding:

* Monetary amounts (Python `Decimal`) are embedded as `Int`.  Every
  operation the code performs on amounts is addition, subtraction or
  comparison; these are exact on decimals and are faithfully represented
  by integers after scaling by the currency precision.
* Records are embedded as structures; a nullable field is an `Option`.
* Fallible code is embedded in `Except`: a Tryton `raise_user_error`
  becomes a tagged error value, and a Python attribute access on
  `None`/`False` (an `AttributeError`) or on an unbound name (a
  `NameError`) becomes its own tagged error value.  An error return
  aborts the operation before the batch write calls that follow it, so
  an `Except.error` result carries no write effects.
* Python dictionaries keyed by record id are embedded as association
  lists, built exactly the way the code builds the dictionary.
* The lifecycle collaborators `quote`, `confirm`, `process` and `do` are
  embedded as the state transitions they perform on the sale
  (`draft → quotation → confirmed → processing → done`); invoice
  generation inside `process` is an external collaborator, so the
  embedded sale carries whatever invoices the surrounding system gave
  it.  `Invoice.post` is embedded as setting the posted state on the
  batch-posted invoices.  `Sale.is_done()` is embedded as a boolean
  field of the sale.
* In `workflow_to_end` the name `invoice` read at the payment loop
  (`payment.party != invoice.party`) is, under Python 3 scoping, the
  variable left over from the earlier `for invoice in sale.invoices`
  loop (the list comprehension inside the payment loop does not leak its
  binder), or unbound (`NameError`) when that loop never ran.  The
  embedding threads this leftover binding explicitly (the `leaked`
  component).
-/

namespace SalePayment

/-- Sale workflow states (`sale.sale.state`). -/
inductive SaleState
  | draft | quotation | confirmed | processing | done | cancelled
  deriving DecidableEq, Repr

/-- Invoice workflow states (`account.invoice.state`). -/
inductive InvoiceState
  | draft | validated | posted | paid | cancelled
  deriving DecidableEq, Repr

/-- An account move line (`account.move.line`): a ledger line with a
debit, a credit, an account and an optional reconciliation mark. -/
structure MoveLine where
  lineId : Nat
  account : Nat
  debit : Int
  credit : Int
  reconciliation : Option Nat := none
  deriving DecidableEq, Repr

/-- An account move (`account.move`): the ledger movement generated for a
posted statement line; only its lines are read by this module. -/
structure Move where
  lines : List MoveLine
  deriving DecidableEq, Repr

/-- A statement line (`account.statement.line`), called a Payment by this
module.  `invoice` and `party` may be rewritten by the settlement
workflow; `move` is set externally once the payment is posted. -/
structure Payment where
  pid : Nat
  amount : Int
  party : Nat
  account : Nat := 0
  statement : Option Nat := none
  date : Option Nat := none
  description : String := ""
  invoice : Option Nat := none
  move : Option Move := none
  deriving DecidableEq, Repr

/-- The party (customer) attributes read by this module.
`sale_invoice_grouping_method` is read through `getattr` with default
`False`, hence a plain truthiness flag here. -/
structure Party where
  id : Nat
  name : String := ""
  account_receivable : Option Nat := none
  sale_invoice_grouping_method : Bool := false
  deriving DecidableEq, Repr

/-- The invoice attributes read or written by this module. -/
structure Invoice where
  id : Nat
  state : InvoiceState
  party : Nat
  invoice_date : Option Nat := none
  accounting_date : Option Nat := none
  description : String := ""
  lines_to_pay : List MoveLine := []
  deriving DecidableEq, Repr

/-- A sale device (`sale.device`): point-of-sale terminal configuration,
carrying a default statement journal and the allowed journal list. -/
structure Device where
  journal : Option Nat := none
  journals : List Nat := []
  deriving DecidableEq, Repr

/-- The sale record (`sale.sale`) as read and written by this module.
`total_amount` is the (function) total of the sale, `none` while it is
not computable; `invoice_method_order` embeds `invoice_method ==
'order'`; `is_done` embeds the lifecycle collaborator predicate
`Sale.is_done()`. -/
structure Sale where
  id : Nat
  state : SaleState
  reference : String := ""
  number : Option String := none
  description : String := ""
  invoice_method_order : Bool := true
  party : Party
  total_amount : Option Int := none
  currency_digits : Nat := 2
  sale_device : Option Device := none
  payments : List Payment := []
  invoices : List Invoice := []
  is_done : Bool := false
  deriving DecidableEq, Repr

/-! ### Payment aggregator: `get_paid_amount` and `get_residual_amount` -/

/-- The per-sale accumulation performed by the inner loop of
`Sale.get_paid_amount`: starting from `Decimal(0)`, add the amount of
every payment of the sale. -/
def paidAmount (s : Sale) : Int :=
  s.payments.foldl (fun acc p => acc + p.amount) 0

/-- Lookup in an association list (a Python dictionary access). -/
def getEntry {α β : Type} [DecidableEq α] : List (α × β) → α → Option β
  | [], _ => none
  | q :: t, k => if q.1 = k then some q.2 else getEntry t k

/-- `result[name][sale.id] += payment.amount`: add `v` to the entry of
key `k`. -/
def addPayment (m : List (Nat × Int)) (k : Nat) (v : Int) : List (Nat × Int) :=
  m.map (fun q => if q.1 = k then (q.1, q.2 + v) else q)

/-- The loop over a sale's payments in `Sale.get_paid_amount`. -/
def payFold (sid : Nat) (ps : List Payment) (m : List (Nat × Int)) : List (Nat × Int) :=
  ps.foldl (fun acc p => addPayment acc sid p.amount) m

/-- The loop over the requested sales in `Sale.get_paid_amount`. -/
def saleFold (sales : List Sale) (m : List (Nat × Int)) : List (Nat × Int) :=
  sales.foldl (fun acc s => payFold s.id s.payments acc) m

/-- `Sale.get_paid_amount(sales, names)`: for every requested name, a
dictionary mapping each sale id (initialised to `Decimal(0)`) to the sum
of the sale's payment amounts. -/
def get_paid_amount (sales : List Sale) (names : List String) :
    List (String × List (Nat × Int)) :=
  names.map (fun n => (n, saleFold sales (sales.map (fun s => (s.id, (0 : Int))))))

/-- `Sale.get_residual_amount`: `total_amount - paid_amount`.  The
subtraction is only meaningful when `total_amount` is available, hence
the `Option`. -/
def get_residual_amount (s : Sale) : Option Int :=
  s.total_amount.map (fun t => t - paidAmount s)

/-! ### Residual query engine: `Sale.search_residual_amount`

The searcher builds a SQL query over the raw tables; we embed the rows
it touches and the query as a membership predicate on sale ids. -/

/-- A row of the `sale_sale` table as read by the query. -/
structure SaleRow where
  id : Nat
  state : SaleState
  total_amount_cache : Option Int := none
  deriving DecidableEq, Repr

/-- A row of the `account_statement_line` table as read by the query:
the foreign key to the sale and the (nullable, at the SQL level)
amount. -/
structure StatementRow where
  sale : Option Nat := none
  amount : Option Int := none
  deriving DecidableEq, Repr

/-- A row of the `sale_line` table as read by the query. -/
structure SaleLineRow where
  id : Nat
  sale : Nat
  deriving DecidableEq, Repr

/-- A row of the `account_invoice_line` table as read by the query:
the string-encoded polymorphic `origin` reference and the foreign key
to the invoice. -/
structure InvoiceLineRow where
  origin : Option String := none
  invoice : Nat
  deriving DecidableEq, Repr

/-- A row of the `account_invoice` table as read by the query. -/
structure InvoiceRow where
  id : Nat
  state : InvoiceState
  deriving DecidableEq, Repr

/-- The tables the residual query ranges over. -/
structure DB where
  sales : List SaleRow := []
  statement_lines : List StatementRow := []
  sale_lines : List SaleLineRow := []
  invoice_lines : List InvoiceLineRow := []
  invoices : List InvoiceRow := []
  deriving DecidableEq, Repr

/-- SQL `Position(c in s)`: the 1-based index of the first occurrence of
`c` in `s`, `0` when absent. -/
def sqlPosition (c : Char) (s : String) : Nat :=
  match s.toList.findIdx? (fun x => x = c) with
  | some i => i + 1
  | none => 0

/-- SQL `Substring(s from start)`: the suffix of `s` from the 1-based
index `start`. -/
def sqlSubstringFrom (s : String) (start : Nat) : String :=
  String.mk (s.toList.drop (start - 1))

/-- A decimal digit, as a value. -/
def charDigit (c : Char) : Option Nat :=
  if c.isDigit then some (c.toNat - 48) else none

/-- Read a non-empty all-digit character list as a number (the SQL
integer cast of the decoded origin suffix; a non-numeric suffix never
matches a sale line id). -/
def parseNat (l : List Char) : Option Nat :=
  match l with
  | [] => none
  | _ => l.foldl (fun acc c => match acc, charDigit c with
      | some n, some d => some (n * 10 + d)
      | _, _ => none) (some 0)

/-- The origin decoding performed by the query:
`Cast(Substring(origin, Position(',', origin) + 1), integer)` — the part
of the `origin` token after the first comma (the whole token when there
is no comma), read as a number; a SQL `NULL` origin never matches. -/
def parseOrigin : Option String → Option Nat
  | none => none
  | some s => parseNat (sqlSubstringFrom s (sqlPosition ',' s + 1)).toList

/-- `Sum(Coalesce(line.amount, 0))` over the statement lines of sale
`sid` (the aggregation of the grouped left join: a sale with no
statement line aggregates to `0`). -/
def paymentSum (db : DB) (sid : Nat) : Int :=
  ((db.statement_lines.filter (fun l => decide (l.sale = some sid))).map
    (fun l => l.amount.getD 0)).sum

/-- The `where` of the grouped subquery: `total_amount_cache != None`
and `state in ['confirmed', 'processing', 'done']`. -/
def whereClause (s : SaleRow) : Bool :=
  s.total_amount_cache.isSome &&
    decide (s.state = SaleState.confirmed ∨ s.state = SaleState.processing ∨
      s.state = SaleState.done)

/-- The `having` of the grouped subquery:
`Sum(Coalesce(line.amount, 0)) < total_amount_cache`. -/
def havingClause (db : DB) (s : SaleRow) : Bool :=
  decide (paymentSum db s.id < s.total_amount_cache.getD 0)

/-- The join of the grouped subquery with `sale_line`,
`account_invoice_line` (on the decoded origin) and `account_invoice`,
filtered on `invoice.state == 'posted'`: a sale id survives iff such a
joined row exists. -/
def joinMatch (db : DB) (sid : Nat) : Bool :=
  db.sale_lines.any (fun sl => decide (sl.sale = sid) &&
    db.invoice_lines.any (fun il => decide (parseOrigin il.origin = some sl.id) &&
      db.invoices.any (fun inv =>
        decide (inv.id = il.invoice) && decide (inv.state = InvoiceState.posted))))

/-- `Sale.search_residual_amount`: the sale ids produced by the query
used in the `('id', 'in', query)` search clause. -/
def search_residual_amount (db : DB) : List Nat :=
  (((db.sales.filter whereClause).filter (havingClause db)).map SaleRow.id).filter
    (fun sid => joinMatch db sid)

/-- The specification predicate, stated from the claim: the sale's state
is confirmed, processing or done; the total is cached and the sum of the
payments' coalesced amounts is strictly below it; and some invoice line
whose origin decodes to one of the sale's order lines belongs to a
posted invoice. -/
def residualClaim (db : DB) (s : SaleRow) : Prop :=
  (s.state = SaleState.confirmed ∨ s.state = SaleState.processing ∨
    s.state = SaleState.done) ∧
  (∃ t, s.total_amount_cache = some t ∧ paymentSum db s.id < t) ∧
  ∃ sl ∈ db.sale_lines, sl.sale = s.id ∧
    ∃ il ∈ db.invoice_lines, parseOrigin il.origin = some sl.id ∧
      ∃ inv ∈ db.invoices, inv.id = il.invoice ∧ inv.state = InvoiceState.posted

/-- A concrete database with one residual sale (id 1, total 100, one
payment of 40, a posted invoice tracing back to its order line 11) and
one sale with no cached total (id 2). -/
def dbEx : DB :=
  { sales := [{ id := 1, state := SaleState.processing, total_amount_cache := some 100 },
              { id := 2, state := SaleState.processing }],
    statement_lines := [{ sale := some 1, amount := some 40 }],
    sale_lines := [{ id := 11, sale := 1 }],
    invoice_lines := [{ origin := some "sale.line,11", invoice := 5 }],
    invoices := [{ id := 5, state := InvoiceState.posted }] }

/-! ### Sale settlement workflow: `Sale.workflow_to_end` -/

/-- Errors `workflow_to_end` can raise: the `not_customer_invoice` user
error, and the Python `NameError` on the leftover `invoice` name when
the invoice-finalisation loop never ran. -/
inductive WfError
  | missingInvoice (ref : String)
  | nameError
  deriving DecidableEq, Repr

/-- The outcome of `workflow_to_end`: the updated sales together with
the batch effects — the invoices staged for `Invoice.write`, the
invoices passed to `Invoice.post`, and the statement lines staged for
`StatementLine.write` with the values written (pid, invoice, party). -/
structure WfResult where
  sales : List Sale
  invoiceWrites : List Nat
  invoicePosts : List Nat
  paymentWrites : List (Nat × Option Nat × Nat)
  deriving DecidableEq, Repr

/-- The lifecycle advancement at the head of the loop:
`quote` a draft sale, `confirm` a quotation, `process` a confirmed sale
(each a delegated transition; a step already passed is skipped). -/
def advanceSale (s : Sale) : Sale :=
  let s1 := if s.state = SaleState.draft then { s with state := SaleState.quotation } else s
  let s2 := if s1.state = SaleState.quotation then { s1 with state := SaleState.confirmed } else s1
  if s2.state = SaleState.confirmed then { s2 with state := SaleState.processing } else s2

/-- The body applied to a draft invoice: set `invoice_date` and
`accounting_date` to today when unset and `description` to the sale's
reference. -/
def finalizeInvoice (ref : String) (today : Nat) (inv : Invoice) : Invoice :=
  let i1 := if inv.invoice_date = none then { inv with invoice_date := some today } else inv
  let i2 := if i1.accounting_date = none then { i1 with accounting_date := some today } else i1
  { i2 with description := ref }

/-- One iteration of `for invoice in sale.invoices`: the accumulator is
(invoices as rebuilt, staged writes, staged posts, the loop variable).
A non-draft invoice is skipped (`continue`) but still binds the loop
variable; a draft invoice is finalised and staged. -/
def invoiceStep (ref : String) (today : Nat)
    (acc : List Invoice × List Nat × List Nat × Option Invoice) (inv : Invoice) :
    List Invoice × List Nat × List Nat × Option Invoice :=
  if inv.state ≠ InvoiceState.draft then
    (acc.1 ++ [inv], acc.2.1, acc.2.2.1, some inv)
  else
    let inv' := finalizeInvoice ref today inv
    (acc.1 ++ [inv'], acc.2.1 ++ [inv'.id], acc.2.2.1 ++ [inv'.id], some inv')

/-- The state threaded through the first loop over the sales. -/
structure PhaseAState where
  salesAcc : List Sale
  writes : List Nat
  to_post : List Nat
  leaked : Option Invoice
  deriving DecidableEq, Repr

/-- The successful part of one first-loop iteration: when the sale has
invoices and the party has no grouping method, run the invoice loop;
otherwise leave the sale untouched. -/
def phaseAOk (today : Nat) (st : PhaseAState) (sale : Sale) : PhaseAState :=
  if sale.invoices ≠ [] ∧ sale.party.sale_invoice_grouping_method = false then
    let r := sale.invoices.foldl (invoiceStep sale.reference today)
      ([], st.writes, st.to_post, st.leaked)
    { salesAcc := st.salesAcc ++ [{ sale with invoices := r.1 }],
      writes := r.2.1, to_post := r.2.2.1, leaked := r.2.2.2 }
  else
    { st with salesAcc := st.salesAcc ++ [sale] }

/-- The missing-invoice check and the invoice finalisation, after the
lifecycle advancement: raise `not_customer_invoice` when the sale still
has no invoices and its invoice method is `order`. -/
def phaseACheck (today : Nat) (st : PhaseAState) (sale : Sale) : Except WfError PhaseAState :=
  if sale.invoices = [] ∧ sale.invoice_method_order = true then
    Except.error (WfError.missingInvoice sale.reference)
  else Except.ok (phaseAOk today st sale)

/-- One iteration of the first loop: advance the lifecycle, then check
and finalise. -/
def phaseASale (today : Nat) (st : PhaseAState) (sale0 : Sale) : Except WfError PhaseAState :=
  phaseACheck today st (advanceSale sale0)

/-- The whole first loop. -/
def phaseA (today : Nat) (sales : List Sale) : Except WfError PhaseAState :=
  sales.foldlM (phaseASale today) { salesAcc := [], writes := [], to_post := [], leaked := none }

/-- `Invoice.post` on the batch-posted set: the staged invoices become
posted. -/
def postInvoices (tp : List Nat) (s : Sale) : Sale :=
  { s with invoices := s.invoices.map (fun inv =>
      if inv.id ∈ tp then { inv with state := InvoiceState.posted } else inv) }

/-- The body of the payment loop: filter the sale's posted invoices; if
none, skip the payment; otherwise set `payment.invoice` to the first
posted invoice and compare/assign `payment.party` against the leftover
`invoice` binding (a `NameError` when it was never bound).  The boolean
reports whether the payment was staged for write. -/
def attributePayment (leaked : Option Invoice) (sale : Sale) (p : Payment) :
    Except WfError (Payment × Bool) :=
  match sale.invoices.filter (fun inv => decide (inv.state = InvoiceState.posted)) with
  | [] => Except.ok (p, false)
  | inv0 :: _ =>
    match leaked with
    | none => Except.error WfError.nameError
    | some linv =>
      let p1 := { p with invoice := some inv0.id }
      let p2 := if p1.party ≠ linv.party then { p1 with party := linv.party } else p1
      Except.ok (p2, true)

/-- One iteration of the payment loop, threading the rebuilt payment
list and the staged `to_write` entries. -/
def payAttrStep (leaked : Option Invoice) (sale : Sale)
    (a : List Payment × List (Nat × Option Nat × Nat)) (p : Payment) :
    Except WfError (List Payment × List (Nat × Option Nat × Nat)) := do
  let q ← attributePayment leaked sale p
  pure (a.1 ++ [q.1], if q.2 then a.2 ++ [(q.1.pid, q.1.invoice, q.1.party)] else a.2)

/-- One iteration of the second loop over the sales: attribute every
payment, accumulating the staged statement-line writes. -/
def phaseBSale (leaked : Option Invoice)
    (acc : List Sale × List (Nat × Option Nat × Nat)) (sale : Sale) :
    Except WfError (List Sale × List (Nat × Option Nat × Nat)) := do
  let r ← sale.payments.foldlM (payAttrStep leaked sale) ([], acc.2)
  pure (acc.1 ++ [{ sale with payments := r.1 }], r.2)

/-- The whole second loop. -/
def phaseB (leaked : Option Invoice) (sales : List Sale) :
    Except WfError (List Sale × List (Nat × Option Nat × Nat)) :=
  sales.foldlM (phaseBSale leaked) ([], [])

/-- `Sale.do` on the sales satisfying `is_done()` (the delegated
workflow transition only fires from the processing state). -/
def doSales (sales : List Sale) : List Sale :=
  sales.map (fun s =>
    if s.is_done = true ∧ s.state = SaleState.processing
    then { s with state := SaleState.done } else s)

/-- `Sale.workflow_to_end`, end to end: first loop (lifecycle advance
and invoice finalisation), batch invoice write and post, second loop
(payment attribution), batch statement-line write, and the final `do`
transition. -/
def workflow_to_end (today : Nat) (sales : List Sale) : Except WfError WfResult := do
  let stA ← phaseA today sales
  let sales1 := if stA.to_post = [] then stA.salesAcc
                else stA.salesAcc.map (postInvoices stA.to_post)
  let r ← phaseB stA.leaked sales1
  pure { sales := doSales r.1,
         invoiceWrites := if stA.to_post = [] then [] else stA.writes,
         invoicePosts := stA.to_post,
         paymentWrites := r.2 }

/-- The leftover `invoice` binding as it stands after the first loop. -/
def phaseALeaked (today : Nat) (sales : List Sale) : Option Invoice :=
  match phaseA today sales with
  | Except.ok st => st.leaked
  | Except.error _ => none

/-- The last element of a list, defaulting to the prior binding: the
value of a Python loop variable after iterating the list. -/
def lastBind (lk : Option Invoice) : List Invoice → Option Invoice
  | [] => lk
  | x :: t => lastBind (some x) t

/-- The leftover `invoice` binding accumulated across the first loop on
sales whose invoices are all already non-draft. -/
def leakedFold (lk : Option Invoice) : List Sale → Option Invoice
  | [] => lk
  | s :: t => leakedFold
      (if s.invoices ≠ [] ∧ s.party.sale_invoice_grouping_method = false
       then lastBind lk s.invoices else lk) t

/-- A sale with two posted invoices of different parties and one payment
whose party equals the first (attributed) invoice's party: the input
exhibiting the leftover-binding assignment. -/
def bugSale : Sale :=
  { id := 1, state := SaleState.processing, reference := "S1",
    party := { id := 1 },
    invoices := [{ id := 10, state := InvoiceState.posted, party := 1 },
                 { id := 11, state := InvoiceState.posted, party := 2 }],
    payments := [{ pid := 100, amount := 50, party := 1 }] }

/-- A sale with no invoices and invoice method `order`. -/
def missingInvSale : Sale :=
  { id := 3, state := SaleState.draft, reference := "S3",
    party := { id := 9 }, invoice_method_order := true }

/-- A settled sale: done, one posted invoice, payment already attributed
to it with matching party. -/
def settledSale : Sale :=
  { id := 4, state := SaleState.done, reference := "S4",
    party := { id := 1 },
    invoices := [{ id := 20, state := InvoiceState.posted, party := 1,
                   invoice_date := some 0, accounting_date := some 0,
                   description := "S4" }],
    payments := [{ pid := 200, amount := 100, party := 1, invoice := some 20 }],
    is_done := true }

/-! ### Ledger reconciler: `WizardSaleReconcile.transition_start` -/

/-- The only failure mode of the reconcile wizard: the attribute access
`account.id` on an absent (`None`) receivable account.  No user error of
the module's taxonomy is raised here. -/
inductive RecError
  | attributeError
  deriving DecidableEq, Repr

/-- The body of the loop over an invoice's `lines_to_pay`: collect the
line when unreconciled, accumulating `debit - credit`. -/
def invLineStep (acc : List MoveLine × Int) (line : MoveLine) : List MoveLine × Int :=
  if line.reconciliation = none
  then (acc.1 ++ [line], acc.2 + (line.debit - line.credit))
  else acc

/-- The loop over the sale's invoices and their `lines_to_pay`. -/
def collectInvoiceLines (s : Sale) : List MoveLine × Int :=
  s.invoices.foldl (fun acc inv => inv.lines_to_pay.foldl invLineStep acc) ([], 0)

/-- The body of the loop over a payment movement's lines: the
reconciliation check short-circuits, so the receivable account is only
dereferenced on an unreconciled line. -/
def payLineStep (account : Option Nat) (acc : List MoveLine × Int) (line : MoveLine) :
    Except RecError (List MoveLine × Int) :=
  if line.reconciliation = none then
    match account with
    | none => Except.error RecError.attributeError
    | some a =>
      Except.ok (if line.account = a
        then (acc.1 ++ [line], acc.2 + (line.debit - line.credit))
        else acc)
  else Except.ok acc

/-- The body of the loop over the sale's payments: a payment without a
movement is skipped. -/
def payMoveStep (account : Option Nat) (acc : List MoveLine × Int) (p : Payment) :
    Except RecError (List MoveLine × Int) :=
  match p.move with
  | none => Except.ok acc
  | some mv => mv.lines.foldlM (payLineStep account) acc

/-- The loop over the sale's payments, continuing the accumulation
started on the invoice lines. -/
def collectPaymentLines (account : Option Nat) (s : Sale) (init : List MoveLine × Int) :
    Except RecError (List MoveLine × Int) :=
  s.payments.foldlM (payMoveStep account) init

/-- Mark one line reconciled when it belongs to the group. -/
def markLine (g : List Nat) (l : MoveLine) : MoveLine :=
  if l.lineId ∈ g then { l with reconciliation := some 1 } else l

/-- `Line.reconcile(lines)`: the group's lines, wherever they live on
the sale, get a reconciliation. -/
def markReconciled (s : Sale) (g : List Nat) : Sale :=
  { s with
    invoices := s.invoices.map (fun inv =>
      { inv with lines_to_pay := inv.lines_to_pay.map (markLine g) }),
    payments := s.payments.map (fun p =>
      { p with move := p.move.map (fun m => { m with lines := m.lines.map (markLine g) }) }) }

/-- One iteration of the reconcile wizard's loop: collect the candidate
lines and reconcile them as one group exactly when the set is non-empty
and the accumulated amount is zero. -/
def reconcileSale (s : Sale) : Except RecError (Sale × Option (List Nat)) := do
  let c ← collectPaymentLines s.party.account_receivable s (collectInvoiceLines s)
  if c.1 ≠ [] ∧ c.2 = 0 then
    Except.ok (markReconciled s (c.1.map MoveLine.lineId), some (c.1.map MoveLine.lineId))
  else
    Except.ok (s, none)

/-- `WizardSaleReconcile.transition_start` over the selected sales. -/
def transition_start (sales : List Sale) : Except RecError (List Sale) :=
  sales.mapM (fun s => (reconcileSale s).map Prod.fst)

/-- The invoice-side candidate set, as the claim describes it: every
unreconciled `lines_to_pay` line of the sale's invoices. -/
def invoiceCandidates (s : Sale) : List MoveLine :=
  s.invoices.flatMap (fun inv =>
    inv.lines_to_pay.filter (fun l => decide (l.reconciliation = none)))

/-- The payment-side candidate set: every unreconciled line of the
payments' movements whose account is the party's receivable account. -/
def paymentCandidates (a : Nat) (s : Sale) : List MoveLine :=
  s.payments.flatMap (fun p =>
    match p.move with
    | none => []
    | some m => m.lines.filter (fun l =>
        decide (l.reconciliation = none) && decide (l.account = a)))

/-- The whole candidate set of the claim. -/
def candidateLines (a : Nat) (s : Sale) : List MoveLine :=
  invoiceCandidates s ++ paymentCandidates a s

/-- The accumulated signed amount over a line set. -/
def signedSum (ls : List MoveLine) : Int :=
  (ls.map (fun l => l.debit - l.credit)).sum

/-- A sale whose invoice receivable line (debit 100) and payment
movement line (credit 100, on the receivable account 50) net to zero. -/
def recSale : Sale :=
  { id := 6, state := SaleState.processing,
    party := { id := 3, account_receivable := some 50 },
    invoices := [{ id := 30, state := InvoiceState.posted, party := 3,
                   lines_to_pay := [{ lineId := 1, account := 50,
                                      debit := 100, credit := 0 }] }],
    payments := [{ pid := 300, amount := 100, party := 3,
                   move := some { lines := [{ lineId := 2, account := 50,
                                              debit := 0, credit := 100 }] } }] }

/-- An unreconciled payment movement line on account 60. -/
def badLine : MoveLine := { lineId := 3, account := 60, debit := 0, credit := 10 }

/-- The movement holding `badLine`. -/
def badMove : Move := { lines := [badLine] }

/-- A payment whose movement holds an unreconciled line. -/
def badPayment : Payment := { pid := 301, amount := 10, party := 4, move := some badMove }

/-- A sale whose party has no receivable account while a payment
movement holds an unreconciled line. -/
def recSaleNoAcct : Sale :=
  { id := 7, state := SaleState.processing,
    party := { id := 4 },
    payments := [badPayment] }

/-! ### Payment wizard: `WizardSalePayment` -/

/-- Statement states (`account.statement.state`). -/
inductive StatementState
  | draft | validated | posted
  deriving DecidableEq, Repr

/-- An account statement as read by the wizard. -/
structure Statement where
  sid : Nat
  journal : Nat
  state : StatementState
  date : Nat
  deriving DecidableEq, Repr

/-- The wizard form (`sale.payment.form`) fields read by the
transition. -/
structure PayForm where
  journal : Nat
  journal_name : String
  payment_amount : Int
  deriving DecidableEq, Repr

/-- Errors `transition_pay_` can raise: `not_draft_statement`,
`party_without_account_receivable`, or an error propagated from the
settlement workflow it invokes. -/
inductive PayError
  | notDraftStatement (journal : String)
  | partyWithoutAccountReceivable (party : String)
  | workflowError (e : WfError)
  deriving DecidableEq, Repr

/-- The outcome of `transition_pay_`: the next wizard state, the sale as
left behind, and whether the settlement workflow was invoked. -/
structure PayResult where
  next : String
  sale : Sale
  ranWorkflow : Bool
  deriving DecidableEq, Repr

/-- Insertion into a list kept in decreasing date order. -/
def insertByDateDesc (st : Statement) : List Statement → List Statement
  | [] => [st]
  | b :: t => if b.date ≤ st.date then st :: b :: t else b :: insertByDateDesc st t

/-- `order=[('date', 'DESC')]`. -/
def sortByDateDesc : List Statement → List Statement
  | [] => []
  | st :: t => insertByDateDesc st (sortByDateDesc t)

/-- `Statement.search([('journal', '=', journal), ('state', '=',
'draft')], order date DESC)`. -/
def draftStatements (statements : List Statement) (journal : Nat) : List Statement :=
  sortByDateDesc (statements.filter (fun st =>
    decide (st.journal = journal) && decide (st.state = StatementState.draft)))

/-- `Sale.set_number([sale])` when the sale has none yet; the sequence
value is delegated, passed in as `newNumber`. -/
def assignNumber (newNumber : String) (s : Sale) : Sale :=
  if s.number = none then { s with number := some newNumber } else s

/-- The optional payment creation: when the entered amount is non-zero,
a statement line on the most recent draft statement, dated today, on the
party's receivable account, described by the sale's number, linked to
the sale. -/
def createPayment (newPid : Nat) (today : Nat) (st0 : Statement) (account : Nat)
    (form : PayForm) (s : Sale) : Sale :=
  if form.payment_amount ≠ 0 then
    { s with payments := s.payments ++
        [{ pid := newPid, amount := form.payment_amount, party := s.party.id,
           account := account, statement := some st0.sid, date := some today,
           description := s.number.getD "" }] }
  else s

/-- `sale.total_amount != sale.paid_amount` (a `None` total compares
unequal to any paid amount). -/
def totalDiffersPaid (s : Sale) : Bool :=
  match s.total_amount with
  | some t => decide (t ≠ paidAmount s)
  | none => true

/-- The tail of `transition_pay_`, after the optional payment creation:
return to `start` when total and paid amounts differ; end without
settlement when the sale is no longer draft; otherwise set the
description to the reference, invoke the settlement workflow once, and
end. -/
def payDecide (today : Nat) (sale2 : Sale) : Except PayError PayResult :=
  if totalDiffersPaid sale2 = true then
    Except.ok { next := "start", sale := sale2, ranWorkflow := false }
  else if sale2.state ≠ SaleState.draft then
    Except.ok { next := "end", sale := sale2, ranWorkflow := false }
  else
    match workflow_to_end today [{ sale2 with description := sale2.reference }] with
    | Except.error e => Except.error (PayError.workflowError e)
    | Except.ok r =>
      Except.ok { next := "end",
                  sale := r.sales.headD { sale2 with description := sale2.reference },
                  ranWorkflow := true }

/-- The middle of `transition_pay_`: resolve the receivable account
(`party_without_account_receivable` when absent), create the payment
when the entered amount is non-zero, then decide. -/
def payWithAccount (today newPid : Nat) (st0 : Statement) (form : PayForm)
    (sale1 : Sale) : Except PayError PayResult :=
  match sale1.party.account_receivable with
  | none => Except.error (PayError.partyWithoutAccountReceivable sale1.party.name)
  | some account => payDecide today (createPayment newPid today st0 account form sale1)

/-- `WizardSalePayment.transition_pay_`: look up the draft statements of
the chosen journal (`not_draft_statement` when none), assign a number,
then resolve, create and decide. -/
def transition_pay_ (today : Nat) (newNumber : String) (newPid : Nat)
    (statements : List Statement) (form : PayForm) (sale0 : Sale) :
    Except PayError PayResult :=
  match draftStatements statements form.journal with
  | [] => Except.error (PayError.notDraftStatement form.journal_name)
  | st0 :: _ => payWithAccount today newPid st0 form (assignNumber newNumber sale0)

/-- Errors `default_start` can raise: the `not_sale_device` user error,
or the attribute access `sale_device.journal` on the `False` left when
the privileged system user has no device. -/
inductive StartError
  | notSaleDevice
  | attributeError
  deriving DecidableEq, Repr

/-- The defaults `default_start` produces for the form. -/
structure StartDefaults where
  journal : Option Nat
  journals : List Nat
  payment_amount : Option Int
  currency_digits : Nat
  party : Nat
  deriving DecidableEq, Repr

/-- The acting user (`res.user`): id 0 is the privileged system user. -/
structure User where
  uid : Nat
  sale_device : Option Device := none
  deriving DecidableEq, Repr

/-- `sale.sale_device or user.sale_device or False`: the device the
form defaults are computed from. -/
def resolveDevice (user : User) (sale : Sale) : Option Device :=
  match sale.sale_device with
  | some d => some d
  | none => user.sale_device

/-- `WizardSalePayment.default_start`: a non-privileged user without a
resolvable device gets the `not_sale_device` error; the privileged one
(id 0) falls through the guard to the `sale_device.journal` dereference
on the `False` device. -/
def default_start (user : User) (sale : Sale) : Except StartError StartDefaults :=
  if user.uid ≠ 0 ∧ resolveDevice user sale = none then Except.error StartError.notSaleDevice
  else
    match resolveDevice user sale with
    | none => Except.error StartError.attributeError
    | some d =>
      Except.ok
        { journal := d.journal, journals := d.journals,
          payment_amount := if paidAmount sale ≠ 0
            then sale.total_amount.map (fun t => t - paidAmount sale)
            else sale.total_amount,
          currency_digits := sale.currency_digits,
          party := sale.party.id }

/-- A draft sale mid-payment: total 100, one prior payment of 40. -/
def paySale : Sale :=
  { id := 8, state := SaleState.draft, reference := "S8",
    party := { id := 5, name := "P5", account_receivable := some 70 },
    total_amount := some 100,
    payments := [{ pid := 400, amount := 40, party := 5 }] }

/-- A draft statement on journal 1. -/
def stmt1 : Statement :=
  { sid := 1, journal := 1, state := StatementState.draft, date := 3 }

/-- One draft statement on journal 1. -/
def stmtsEx : List Statement := [stmt1]

/-- A form paying 30 on journal 1. -/
def formEx : PayForm := { journal := 1, journal_name := "J1", payment_amount := 30 }

end SalePayment

namespace SalePayment

/-! ### Theorems -/

theorem paidAmount_eq_sum (s : Sale) :
    paidAmount s = (s.payments.map Payment.amount).sum := by
  have h : ∀ (ps : List Payment) (a : Int),
      ps.foldl (fun acc p => acc + p.amount) a = a + (ps.map Payment.amount).sum := by
    intro ps
    induction ps with
    | nil => simp
    | cons p t ih =>
      intro a
      simp [List.foldl_cons, ih, add_assoc]
  simpa using h s.payments 0

theorem getEntry_addPayment (m : List (Nat × Int)) (k sid : Nat) (v : Int) :
    getEntry (addPayment m sid v) k
      = (getEntry m k).map (fun x => if k = sid then x + v else x) := by
  induction m with
  | nil => simp [addPayment, getEntry]
  | cons q t ih =>
    by_cases h1 : q.1 = sid <;> by_cases h2 : q.1 = k <;>
      simp_all [addPayment, getEntry]

theorem getEntry_payFold (sid : Nat) (ps : List Payment) (m : List (Nat × Int)) (k : Nat) :
    getEntry (payFold sid ps m) k
      = (getEntry m k).map
          (fun x => if k = sid then x + (ps.map Payment.amount).sum else x) := by
  induction ps generalizing m with
  | nil =>
    cases h : getEntry m k <;> simp [payFold, h]
  | cons p t ih =>
    have hstep : payFold sid (p :: t) m = payFold sid t (addPayment m sid p.amount) := by
      simp [payFold]
    rw [hstep, ih, getEntry_addPayment]
    cases h : getEntry m k with
    | none => simp
    | some x =>
      by_cases hk : k = sid <;> simp [hk, add_assoc]

theorem getEntry_saleFold (sales : List Sale) (m : List (Nat × Int)) (k : Nat) :
    getEntry (saleFold sales m) k
      = (getEntry m k).map
          (fun x => x + ((sales.filter (fun s => decide (s.id = k))).map
              (fun s => (s.payments.map Payment.amount).sum)).sum) := by
  induction sales generalizing m with
  | nil =>
    cases h : getEntry m k <;> simp [saleFold, h]
  | cons s t ih =>
    have hstep : saleFold (s :: t) m = saleFold t (payFold s.id s.payments m) := by
      simp [saleFold]
    rw [hstep, ih, getEntry_payFold]
    cases h : getEntry m k with
    | none => simp
    | some x =>
      by_cases hk : k = s.id
      · subst hk
        simp [add_assoc]
      · have : ¬ s.id = k := fun hc => hk hc.symm
        simp [hk, this]

theorem getEntry_init (sales : List Sale) (k : Nat) (h : k ∈ sales.map Sale.id) :
    getEntry (sales.map (fun s => (s.id, (0 : Int)))) k = some 0 := by
  induction sales with
  | nil => simp at h
  | cons s t ih =>
    by_cases hk : s.id = k
    · simp [getEntry, hk]
    · have hmem : k ∈ t.map Sale.id := by
        rw [List.map_cons] at h
        rcases List.mem_cons.mp h with h1 | h1
        · exact absurd h1.symm hk
        · exact h1
      simp [getEntry, hk, ih hmem]

theorem filter_id_eq_of_nodup (sales : List Sale)
    (hnd : (sales.map Sale.id).Nodup) (s : Sale) (hs : s ∈ sales) :
    sales.filter (fun x => decide (x.id = s.id)) = [s] := by
  induction sales with
  | nil => simp at hs
  | cons a t ih =>
    rw [List.map_cons, List.nodup_cons] at hnd
    rcases List.mem_cons.mp hs with h | h
    · subst h
      have hnone : t.filter (fun x => decide (x.id = s.id)) = [] := by
        apply List.filter_eq_nil_iff.mpr
        intro x hx
        simp only [decide_eq_true_eq]
        intro hc
        exact hnd.1 (hc ▸ List.mem_map_of_mem Sale.id hx)
      simp [List.filter_cons, hnone]
    · have hne : ¬ a.id = s.id := by
        intro hc
        exact hnd.1 (hc ▸ List.mem_map_of_mem Sale.id h)
      simp [List.filter_cons, hne, ih hnd.2 h]

/-- C7: `Sale.get_paid_amount` maps, for every requested name and every
requested sale (with distinct ids), the sale's id to the sum of its
payments' amounts; a sale with no payments is mapped to `0`.  The
function is pure (it is a plain function of its inputs and produces no
effect). -/
theorem get_paid_amount_spec (sales : List Sale) (names : List String)
    (hnd : (sales.map Sale.id).Nodup) :
    ∀ n ∈ names, ∀ s ∈ sales,
      (getEntry (get_paid_amount sales names) n).bind (fun m => getEntry m s.id)
          = some ((s.payments.map Payment.amount).sum)
        ∧ (s.payments = [] →
            (getEntry (get_paid_amount sales names) n).bind (fun m => getEntry m s.id)
              = some 0) := by
  intro n hn s hs
  have htab : getEntry (get_paid_amount sales names) n
      = some (saleFold sales (sales.map (fun s => (s.id, (0 : Int))))) := by
    unfold get_paid_amount
    induction names with
    | nil => simp at hn
    | cons a t ih =>
      by_cases ha : a = n
      · simp [getEntry, ha]
      · rcases List.mem_cons.mp hn with h | h
        · exact absurd h.symm ha
        · simp [getEntry, ha, ih h]
  have hval : getEntry (saleFold sales (sales.map (fun s => (s.id, (0 : Int))))) s.id
      = some ((s.payments.map Payment.amount).sum) := by
    rw [getEntry_saleFold, getEntry_init sales s.id (List.mem_map_of_mem Sale.id hs)]
    rw [filter_id_eq_of_nodup sales hnd s hs]
    simp
  constructor
  · rw [htab]
    simpa using hval
  · intro hnil
    rw [htab, Option.some_bind, hval, hnil]
    simp

/-- Closed instance of `get_paid_amount_spec` at a concrete input. -/
theorem get_paid_amount_spec_witness :
    (getEntry
        (get_paid_amount
          [{ id := 1, state := SaleState.draft, party := { id := 7 },
             payments := [{ pid := 1, amount := 40, party := 7 },
                          { pid := 2, amount := 25, party := 7 }] },
           { id := 2, state := SaleState.draft, party := { id := 8 } }]
          ["paid_amount"]) "paid_amount").bind
        (fun m => getEntry m 1) = some 65 := by
  have h := get_paid_amount_spec
    [{ id := 1, state := SaleState.draft, party := { id := 7 },
       payments := [{ pid := 1, amount := 40, party := 7 },
                    { pid := 2, amount := 25, party := 7 }] },
     { id := 2, state := SaleState.draft, party := { id := 8 } }]
    ["paid_amount"] (by decide) "paid_amount" (by decide)
    { id := 1, state := SaleState.draft, party := { id := 7 },
      payments := [{ pid := 1, amount := 40, party := 7 },
                   { pid := 2, amount := 25, party := 7 }] } (by decide)
  simpa using h.1

/-- C8: on a sale whose total is available, `Sale.get_residual_amount`
is exactly `total_amount` minus the sum of the payments' amounts (the
paid amount of C7). -/
theorem get_residual_amount_spec (s : Sale) (t : Int)
    (h : s.total_amount = some t) :
    get_residual_amount s = some (t - (s.payments.map Payment.amount).sum) := by
  unfold get_residual_amount
  rw [h, paidAmount_eq_sum]
  rfl

/-- Closed instance of `get_residual_amount_spec` at a concrete input. -/
theorem get_residual_amount_spec_witness :
    get_residual_amount
        { id := 1, state := SaleState.draft, party := { id := 7 },
          total_amount := some 100,
          payments := [{ pid := 1, amount := 40, party := 7 }] }
      = some 60 := by
  have h := get_residual_amount_spec
    { id := 1, state := SaleState.draft, party := { id := 7 },
      total_amount := some 100,
      payments := [{ pid := 1, amount := 40, party := 7 }] } 100 rfl
  simpa using h

theorem joinMatch_iff (db : DB) (sid : Nat) :
    joinMatch db sid = true ↔
      ∃ sl ∈ db.sale_lines, sl.sale = sid ∧
        ∃ il ∈ db.invoice_lines, parseOrigin il.origin = some sl.id ∧
          ∃ inv ∈ db.invoices, inv.id = il.invoice ∧
            inv.state = InvoiceState.posted := by
  unfold joinMatch
  simp only [List.any_eq_true, Bool.and_eq_true, decide_eq_true_eq]

/-- C1: membership in the residual query is exactly the claimed
predicate; in particular a sale id all of whose rows have no cached
total is never returned. -/
theorem search_residual_amount_spec (db : DB) (sid : Nat) :
    (sid ∈ search_residual_amount db ↔
      ∃ s ∈ db.sales, s.id = sid ∧ residualClaim db s) ∧
    ((∀ s ∈ db.sales, s.id = sid → s.total_amount_cache = none) →
      sid ∉ search_residual_amount db) := by
  have hmain : sid ∈ search_residual_amount db ↔
      ∃ s ∈ db.sales, s.id = sid ∧ residualClaim db s := by
    unfold search_residual_amount
    simp only [List.mem_filter, List.mem_map]
    constructor
    · rintro ⟨⟨s, ⟨⟨hs, hw⟩, hh⟩, hid⟩, hj⟩
      refine ⟨s, hs, hid, ?_⟩
      unfold whereClause at hw
      unfold havingClause at hh
      simp only [Bool.and_eq_true, decide_eq_true_eq, Option.isSome_iff_exists] at hw hh
      obtain ⟨⟨t, ht⟩, hstate⟩ := hw
      refine ⟨hstate, ⟨t, ht, ?_⟩, ?_⟩
      · rw [ht] at hh
        simpa using hh
      · have hj' := (joinMatch_iff db sid).mp hj
        rw [hid]
        exact hj'
    · rintro ⟨s, hs, hid, hstate, ⟨t, ht, hlt⟩, hjoin⟩
      refine ⟨⟨s, ⟨⟨hs, ?_⟩, ?_⟩, hid⟩, ?_⟩
      · unfold whereClause
        simp only [Bool.and_eq_true, decide_eq_true_eq, Option.isSome_iff_exists]
        exact ⟨⟨t, ht⟩, hstate⟩
      · unfold havingClause
        simp only [decide_eq_true_eq, ht]
        simpa using hlt
      · apply (joinMatch_iff db sid).mpr
        rw [hid] at hjoin
        exact hjoin
  refine ⟨hmain, ?_⟩
  intro hall hmem
  obtain ⟨s, hs, hid, _, ⟨t, ht, _⟩, _⟩ := hmain.mp hmem
  rw [hall s hs hid] at ht
  exact Option.noConfusion ht

/-- Closed instance of `search_residual_amount_spec`: sale 1 is
returned, sale 2 (no cached total) is not. -/
theorem search_residual_amount_spec_witness :
    1 ∈ search_residual_amount dbEx ∧ 2 ∉ search_residual_amount dbEx := by
  constructor
  · apply (search_residual_amount_spec dbEx 1).1.mpr
    refine ⟨{ id := 1, state := SaleState.processing, total_amount_cache := some 100 },
      by decide, rfl, by decide, ⟨100, rfl, by decide⟩,
      ⟨{ id := 11, sale := 1 }, by decide, rfl,
        ⟨{ origin := some "sale.line,11", invoice := 5 }, by decide, by decide,
          ⟨{ id := 5, state := InvoiceState.posted }, by decide, rfl, rfl⟩⟩⟩⟩
  · exact (search_residual_amount_spec dbEx 2).2 (by decide)

theorem advanceSale_eq (s : Sale) :
    advanceSale s =
      if s.state = SaleState.draft ∨ s.state = SaleState.quotation ∨
          s.state = SaleState.confirmed
      then { s with state := SaleState.processing } else s := by
  cases hs : s.state <;> simp [advanceSale, hs]

theorem advanceSale_invoices (s : Sale) : (advanceSale s).invoices = s.invoices := by
  rw [advanceSale_eq]
  split_ifs <;> rfl

theorem advanceSale_method (s : Sale) :
    (advanceSale s).invoice_method_order = s.invoice_method_order := by
  rw [advanceSale_eq]
  split_ifs <;> rfl

theorem advanceSale_reference (s : Sale) : (advanceSale s).reference = s.reference := by
  rw [advanceSale_eq]
  split_ifs <;> rfl

theorem advanceSale_of_done (s : Sale) (h : s.state = SaleState.done) :
    advanceSale s = s := by
  rw [advanceSale_eq, h]
  simp

theorem phaseASale_error (today : Nat) (st : PhaseAState) (s : Sale)
    (h : s.invoices = [] ∧ s.invoice_method_order = true) :
    phaseASale today st s = Except.error (WfError.missingInvoice s.reference) := by
  unfold phaseASale phaseACheck
  rw [advanceSale_invoices, advanceSale_method, advanceSale_reference]
  simp [h.1, h.2]

theorem phaseASale_ok (today : Nat) (st : PhaseAState) (s : Sale)
    (h : ¬(s.invoices = [] ∧ s.invoice_method_order = true)) :
    phaseASale today st s = Except.ok (phaseAOk today st (advanceSale s)) := by
  unfold phaseASale phaseACheck
  rw [advanceSale_invoices, advanceSale_method]
  simp [h]

theorem foldlM_phaseA_error (today : Nat) (sales : List Sale)
    (h : ∃ s ∈ sales, s.invoices = [] ∧ s.invoice_method_order = true) :
    ∀ st : PhaseAState, ∃ s ∈ sales, s.invoices = [] ∧ s.invoice_method_order = true ∧
      List.foldlM (phaseASale today) st sales
        = Except.error (WfError.missingInvoice s.reference) := by
  induction sales with
  | nil => simp at h
  | cons a t ih =>
    intro st
    by_cases ha : a.invoices = [] ∧ a.invoice_method_order = true
    · refine ⟨a, List.mem_cons_self a t, ha.1, ha.2, ?_⟩
      rw [List.foldlM_cons, phaseASale_error today st a ha]
      rfl
    · have h' : ∃ s ∈ t, s.invoices = [] ∧ s.invoice_method_order = true := by
        obtain ⟨s, hs, hc⟩ := h
        rcases List.mem_cons.mp hs with hsa | hmem
        · subst hsa
          exact absurd hc ha
        · exact ⟨s, hmem, hc⟩
      obtain ⟨s, hs, h1, h2, heq⟩ := ih h' (phaseAOk today st (advanceSale a))
      refine ⟨s, List.mem_cons_of_mem a hs, h1, h2, ?_⟩
      rw [List.foldlM_cons, phaseASale_ok today st a ha]
      exact heq

/-- C4: when some sale, after lifecycle advancement, still has no
invoices while its invoice method is `order`, `workflow_to_end` raises
the `not_customer_invoice` user error naming such a sale's reference;
the error return occurs before the batch `Invoice.write`,
`Invoice.post` and `StatementLine.write` calls, so no invoice or
payment write effect is produced (an `Except.error` carries no
`WfResult`).  Lifecycle advancement never changes the invoice list, so
the condition is stated on the input sale. -/
theorem workflow_missing_invoice (today : Nat) (sales : List Sale)
    (h : ∃ s ∈ sales, s.invoices = [] ∧ s.invoice_method_order = true) :
    ∃ s ∈ sales, s.invoices = [] ∧ s.invoice_method_order = true ∧
      workflow_to_end today sales = Except.error (WfError.missingInvoice s.reference) := by
  obtain ⟨s, hs, h1, h2, heq⟩ := foldlM_phaseA_error today sales h
    { salesAcc := [], writes := [], to_post := [], leaked := none }
  refine ⟨s, hs, h1, h2, ?_⟩
  unfold workflow_to_end phaseA
  rw [heq]
  rfl

/-- Closed instance of `workflow_missing_invoice` at a concrete input. -/
theorem workflow_missing_invoice_witness :
    ∃ s ∈ [missingInvSale], s.invoices = [] ∧ s.invoice_method_order = true ∧
      workflow_to_end 0 [missingInvSale]
        = Except.error (WfError.missingInvoice s.reference) :=
  workflow_missing_invoice 0 [missingInvSale]
    ⟨missingInvSale, List.mem_singleton.mpr rfl, rfl, rfl⟩

/-- C2: evaluation of the settlement workflow on `bugSale` (one sale,
two posted invoices with parties 1 and 2, one payment with party 1).
The payment is attributed to the first posted invoice (id 10, party 1),
and its party already equals that invoice's party — yet the written
payment carries party 2: the party comparison reads the `invoice` name
left over from the earlier invoice loop (the sale's last invoice, party
2), not the attributed invoice, so the payment is re-homed to the wrong
party. -/
theorem workflow_party_leak :
    (workflow_to_end 0 [bugSale]).toOption.map (fun r =>
        r.sales.map (fun s => s.payments.map (fun p => (p.invoice, p.party))))
      = some [[(some 10, 2)]]
    ∧ bugSale.payments.map Payment.party = [1]
    ∧ (bugSale.invoices.map Invoice.party).head? = some 1 := by
  decide

theorem except_bind_ok {ε α β : Type} (a : α) (f : α → Except ε β) :
    (Except.ok a >>= f : Except ε β) = f a := rfl

theorem except_map_ok {ε α β : Type} (a : α) (f : α → β) :
    (Except.map f (Except.ok a) : Except ε β) = Except.ok (f a) := rfl

theorem workflow_to_end_eq (today : Nat) (sales : List Sale) (st : PhaseAState)
    (hA : phaseA today sales = Except.ok st)
    (r : List Sale × List (Nat × Option Nat × Nat))
    (hB : phaseB st.leaked
        (if st.to_post = [] then st.salesAcc else st.salesAcc.map (postInvoices st.to_post))
      = Except.ok r) :
    workflow_to_end today sales
      = Except.ok { sales := doSales r.1,
                    invoiceWrites := if st.to_post = [] then [] else st.writes,
                    invoicePosts := st.to_post, paymentWrites := r.2 } := by
  unfold workflow_to_end
  rw [hA, except_bind_ok]
  show phaseB st.leaked
      (if st.to_post = [] then st.salesAcc else st.salesAcc.map (postInvoices st.to_post))
      >>= _ = _
  rw [hB, except_bind_ok]
  rfl

theorem invoiceFold_nondraft (ref : String) (today : Nat) (invs : List Invoice)
    (h : ∀ inv ∈ invs, inv.state ≠ InvoiceState.draft) :
    ∀ (acc : List Invoice) (ws tp : List Nat) (lk : Option Invoice),
      invs.foldl (invoiceStep ref today) (acc, ws, tp, lk)
        = (acc ++ invs, ws, tp, lastBind lk invs) := by
  induction invs with
  | nil =>
    intro acc ws tp lk
    simp [lastBind]
  | cons inv t ih =>
    intro acc ws tp lk
    have hinv : inv.state ≠ InvoiceState.draft := h inv (List.mem_cons_self inv t)
    have ht : ∀ x ∈ t, x.state ≠ InvoiceState.draft :=
      fun x hx => h x (List.mem_cons_of_mem inv hx)
    rw [List.foldl_cons]
    have hstep : invoiceStep ref today (acc, ws, tp, lk) inv
        = (acc ++ [inv], ws, tp, some inv) := by
      unfold invoiceStep
      simp [hinv]
    rw [hstep, ih ht]
    simp [lastBind]

theorem phaseAOk_nondraft (today : Nat) (st : PhaseAState) (s : Sale)
    (h : ∀ inv ∈ s.invoices, inv.state ≠ InvoiceState.draft) :
    phaseAOk today st s =
      { salesAcc := st.salesAcc ++ [s], writes := st.writes, to_post := st.to_post,
        leaked := if s.invoices ≠ [] ∧ s.party.sale_invoice_grouping_method = false
                  then lastBind st.leaked s.invoices else st.leaked } := by
  unfold phaseAOk
  split_ifs with hg
  · rw [invoiceFold_nondraft s.reference today s.invoices h [] st.writes st.to_post st.leaked]
    simp
  · rfl

theorem foldlM_phaseA_settled (today : Nat) (sales : List Sale)
    (hdone : ∀ s ∈ sales, s.state = SaleState.done)
    (hpost : ∀ s ∈ sales, ∀ inv ∈ s.invoices, inv.state ≠ InvoiceState.draft)
    (hinv : ∀ s ∈ sales, ¬(s.invoices = [] ∧ s.invoice_method_order = true)) :
    ∀ st : PhaseAState,
      List.foldlM (phaseASale today) st sales
        = Except.ok { salesAcc := st.salesAcc ++ sales, writes := st.writes,
                      to_post := st.to_post, leaked := leakedFold st.leaked sales } := by
  induction sales with
  | nil =>
    intro st
    simp only [List.foldlM_nil, leakedFold, List.append_nil]
    rfl
  | cons a t ih =>
    intro st
    have ha : a.state = SaleState.done := hdone a (List.mem_cons_self a t)
    rw [List.foldlM_cons,
      phaseASale_ok today st a (hinv a (List.mem_cons_self a t)),
      advanceSale_of_done a ha]
    have hstep : phaseAOk today st a =
        { salesAcc := st.salesAcc ++ [a], writes := st.writes, to_post := st.to_post,
          leaked := if a.invoices ≠ [] ∧ a.party.sale_invoice_grouping_method = false
                    then lastBind st.leaked a.invoices else st.leaked } :=
      phaseAOk_nondraft today st a (hpost a (List.mem_cons_self a t))
    have ihs := ih (fun s hs => hdone s (List.mem_cons_of_mem a hs))
      (fun s hs => hpost s (List.mem_cons_of_mem a hs))
      (fun s hs => hinv s (List.mem_cons_of_mem a hs))
    show List.foldlM (phaseASale today) (phaseAOk today st a) t = _
    rw [hstep, ihs]
    simp [leakedFold]

theorem phaseA_settled (today : Nat) (sales : List Sale)
    (hdone : ∀ s ∈ sales, s.state = SaleState.done)
    (hpost : ∀ s ∈ sales, ∀ inv ∈ s.invoices, inv.state ≠ InvoiceState.draft)
    (hinv : ∀ s ∈ sales, ¬(s.invoices = [] ∧ s.invoice_method_order = true)) :
    phaseA today sales
      = Except.ok { salesAcc := sales, writes := [], to_post := [],
                    leaked := leakedFold none sales } := by
  unfold phaseA
  rw [foldlM_phaseA_settled today sales hdone hpost hinv]
  simp

theorem foldlM_payAttr_fix (leaked : Option Invoice) (sale : Sale) (ps : List Payment)
    (h : ∀ p ∈ ps, ∃ b, attributePayment leaked sale p = Except.ok (p, b)) :
    ∀ (acc : List Payment) (w : List (Nat × Option Nat × Nat)),
      ∃ w', List.foldlM (payAttrStep leaked sale) (acc, w) ps = Except.ok (acc ++ ps, w')
        ∧ ∀ e ∈ w', e ∈ w ∨ ∃ p ∈ ps, e = (p.pid, p.invoice, p.party) := by
  induction ps with
  | nil =>
    intro acc w
    refine ⟨w, ?_, fun e he => Or.inl he⟩
    simp only [List.foldlM_nil, List.append_nil]
    rfl
  | cons p t ih =>
    intro acc w
    obtain ⟨b, hb⟩ := h p (List.mem_cons_self p t)
    have ht : ∀ q ∈ t, ∃ b, attributePayment leaked sale q = Except.ok (q, b) :=
      fun q hq => h q (List.mem_cons_of_mem p hq)
    obtain ⟨w', hw', hsub⟩ := ih ht (acc ++ [p])
      (if b then w ++ [(p.pid, p.invoice, p.party)] else w)
    refine ⟨w', ?_, ?_⟩
    · rw [List.foldlM_cons]
      have hstep : payAttrStep leaked sale (acc, w) p
          = Except.ok (acc ++ [p],
              if b then w ++ [(p.pid, p.invoice, p.party)] else w) := by
        unfold payAttrStep
        rw [hb]
        rfl
      rw [hstep]
      show List.foldlM (payAttrStep leaked sale)
        (acc ++ [p], if b then w ++ [(p.pid, p.invoice, p.party)] else w) t = _
      rw [hw']
      simp
    · intro e he
      rcases hsub e he with h1 | ⟨q, hq, he2⟩
      · by_cases hbb : b = true
        · rw [hbb] at h1
          simp only [if_true] at h1
          rcases List.mem_append.mp h1 with h2 | h2
          · exact Or.inl h2
          · rw [List.mem_singleton] at h2
            exact Or.inr ⟨p, List.mem_cons_self p t, h2⟩
        · rw [Bool.not_eq_true] at hbb
          rw [hbb] at h1
          simp only [Bool.false_eq_true, if_false] at h1
          exact Or.inl h1
      · exact Or.inr ⟨q, List.mem_cons_of_mem p hq, he2⟩

theorem phaseBSale_fix (leaked : Option Invoice) (s : Sale)
    (accS : List Sale) (w : List (Nat × Option Nat × Nat))
    (h : ∀ p ∈ s.payments, ∃ b, attributePayment leaked s p = Except.ok (p, b)) :
    ∃ w', phaseBSale leaked (accS, w) s = Except.ok (accS ++ [s], w')
      ∧ ∀ e ∈ w', e ∈ w ∨ ∃ p ∈ s.payments, e = (p.pid, p.invoice, p.party) := by
  obtain ⟨w', hw', hsub⟩ := foldlM_payAttr_fix leaked s s.payments h [] w
  refine ⟨w', ?_, hsub⟩
  unfold phaseBSale
  show s.payments.foldlM (payAttrStep leaked s) ([], w) >>= _ = _
  rw [hw']
  simp

theorem foldlM_phaseB_fix (leaked : Option Invoice) (sales : List Sale)
    (h : ∀ s ∈ sales, ∀ p ∈ s.payments,
        ∃ b, attributePayment leaked s p = Except.ok (p, b)) :
    ∀ (accS : List Sale) (w : List (Nat × Option Nat × Nat)),
      ∃ w', List.foldlM (phaseBSale leaked) (accS, w) sales
          = Except.ok (accS ++ sales, w')
        ∧ ∀ e ∈ w', e ∈ w ∨ ∃ s ∈ sales, ∃ p ∈ s.payments,
            e = (p.pid, p.invoice, p.party) := by
  induction sales with
  | nil =>
    intro accS w
    refine ⟨w, ?_, fun e he => Or.inl he⟩
    simp only [List.foldlM_nil, List.append_nil]
    rfl
  | cons a t ih =>
    intro accS w
    obtain ⟨w1, hw1, hsub1⟩ := phaseBSale_fix leaked a accS w
      (h a (List.mem_cons_self a t))
    obtain ⟨w', hw', hsub⟩ := ih
      (fun s hs p hp => h s (List.mem_cons_of_mem a hs) p hp) (accS ++ [a]) w1
    refine ⟨w', ?_, ?_⟩
    · rw [List.foldlM_cons, hw1]
      show List.foldlM (phaseBSale leaked) (accS ++ [a], w1) t = _
      rw [hw']
      simp
    · intro e he
      rcases hsub e he with h1 | ⟨s, hs, p, hp, he2⟩
      · rcases hsub1 e h1 with h2 | ⟨p, hp, he2⟩
        · exact Or.inl h2
        · exact Or.inr ⟨a, List.mem_cons_self a t, p, hp, he2⟩
      · exact Or.inr ⟨s, List.mem_cons_of_mem a hs, p, hp, he2⟩

theorem doSales_of_done (sales : List Sale)
    (h : ∀ s ∈ sales, s.state = SaleState.done) :
    doSales sales = sales := by
  induction sales with
  | nil => rfl
  | cons a t ih =>
    have ha : a.state = SaleState.done := h a (List.mem_cons_self a t)
    unfold doSales
    rw [List.map_cons]
    have hcond : ¬(a.is_done = true ∧ a.state = SaleState.processing) := by
      rintro ⟨-, hc⟩
      rw [ha] at hc
      exact SaleState.noConfusion hc
    rw [if_neg hcond]
    have iht := ih (fun s hs => h s (List.mem_cons_of_mem a hs))
    unfold doSales at iht
    rw [iht]

/-- C6: the settlement workflow is idempotent once a sale is done.  On
sales already in the done state with all their invoices posted (and
payments already attributed the way the payment loop itself attributes
them — the state a first successful run leaves behind), a further run
performs no invoice write, posts nothing, leaves every sale byte for
byte unchanged, and stages only writes whose values are the payments'
current values. -/
theorem workflow_idempotent_on_done (today : Nat) (sales : List Sale)
    (hdone : ∀ s ∈ sales, s.state = SaleState.done)
    (hpost : ∀ s ∈ sales, ∀ inv ∈ s.invoices, inv.state = InvoiceState.posted)
    (hinv : ∀ s ∈ sales, ¬(s.invoices = [] ∧ s.invoice_method_order = true))
    (hfix : ∀ s ∈ sales, ∀ p ∈ s.payments,
        ∃ b, attributePayment (phaseALeaked today sales) s p = Except.ok (p, b)) :
    ∃ pw, workflow_to_end today sales
        = Except.ok { sales := sales, invoiceWrites := [], invoicePosts := [],
                      paymentWrites := pw }
      ∧ ∀ e ∈ pw, ∃ s ∈ sales, ∃ p ∈ s.payments, e = (p.pid, p.invoice, p.party) := by
  have hpost' : ∀ s ∈ sales, ∀ inv ∈ s.invoices, inv.state ≠ InvoiceState.draft := by
    intro s hs inv hi
    rw [hpost s hs inv hi]
    exact fun hc => InvoiceState.noConfusion hc
  have hA := phaseA_settled today sales hdone hpost' hinv
  have hLk : phaseALeaked today sales = leakedFold none sales := by
    unfold phaseALeaked
    rw [hA]
  rw [hLk] at hfix
  obtain ⟨pw, hB, hsub⟩ := foldlM_phaseB_fix (leakedFold none sales) sales hfix [] []
  have hPB : phaseB (leakedFold none sales) sales = Except.ok (sales, pw) := by
    unfold phaseB
    rw [hB]
    rfl
  refine ⟨pw, ?_, ?_⟩
  · have hred := workflow_to_end_eq today sales
      { salesAcc := sales, writes := [], to_post := [], leaked := leakedFold none sales }
      hA (sales, pw) hPB
    rw [hred]
    simp [doSales_of_done sales hdone]
  · intro e he
    rcases hsub e he with h1 | h2
    · exact absurd h1 (List.not_mem_nil e)
    · exact h2

theorem signedSum_append (x y : List MoveLine) :
    signedSum (x ++ y) = signedSum x + signedSum y := by
  unfold signedSum
  rw [List.map_append, List.sum_append]

theorem foldl_invLineStep (lines : List MoveLine) :
    ∀ acc : List MoveLine × Int,
      lines.foldl invLineStep acc
        = (acc.1 ++ lines.filter (fun l => decide (l.reconciliation = none)),
           acc.2 + signedSum (lines.filter (fun l => decide (l.reconciliation = none)))) := by
  induction lines with
  | nil =>
    intro acc
    simp [signedSum]
  | cons l t ih =>
    intro acc
    rw [List.foldl_cons]
    by_cases hl : l.reconciliation = none
    · have hstep : invLineStep acc l = (acc.1 ++ [l], acc.2 + (l.debit - l.credit)) := by
        unfold invLineStep
        rw [if_pos hl]
      rw [hstep, ih]
      simp [List.filter_cons, hl, signedSum, add_assoc]
    · have hstep : invLineStep acc l = acc := by
        unfold invLineStep
        rw [if_neg hl]
      rw [hstep, ih]
      simp [List.filter_cons, hl]

theorem foldl_invoices_collect (invs : List Invoice) :
    ∀ acc : List MoveLine × Int,
      invs.foldl (fun acc inv => inv.lines_to_pay.foldl invLineStep acc) acc
        = (acc.1 ++ invs.flatMap (fun inv =>
              inv.lines_to_pay.filter (fun l => decide (l.reconciliation = none))),
           acc.2 + signedSum (invs.flatMap (fun inv =>
              inv.lines_to_pay.filter (fun l => decide (l.reconciliation = none))))) := by
  induction invs with
  | nil =>
    intro acc
    simp [signedSum]
  | cons inv t ih =>
    intro acc
    rw [List.foldl_cons, foldl_invLineStep, ih]
    simp [signedSum_append, add_assoc]

theorem collectInvoiceLines_eq (s : Sale) :
    collectInvoiceLines s = (invoiceCandidates s, signedSum (invoiceCandidates s)) := by
  unfold collectInvoiceLines invoiceCandidates
  rw [foldl_invoices_collect]
  simp

theorem foldlM_payLineStep_some (a : Nat) (lines : List MoveLine) :
    ∀ acc : List MoveLine × Int,
      lines.foldlM (payLineStep (some a)) acc
        = Except.ok (acc.1 ++ lines.filter (fun l =>
              decide (l.reconciliation = none) && decide (l.account = a)),
            acc.2 + signedSum (lines.filter (fun l =>
              decide (l.reconciliation = none) && decide (l.account = a)))) := by
  induction lines with
  | nil =>
    intro acc
    simp only [List.foldlM_nil, List.filter_nil, List.append_nil]
    have hz : signedSum ([] : List MoveLine) = 0 := rfl
    rw [hz, add_zero]
    rfl
  | cons l t ih =>
    intro acc
    rw [List.foldlM_cons]
    by_cases hl : l.reconciliation = none
    · by_cases ha2 : l.account = a
      · have hstep : payLineStep (some a) acc l
            = Except.ok (acc.1 ++ [l], acc.2 + (l.debit - l.credit)) := by
          unfold payLineStep
          rw [if_pos hl]
          simp [ha2]
        rw [hstep]
        show t.foldlM (payLineStep (some a)) (acc.1 ++ [l], acc.2 + (l.debit - l.credit)) = _
        rw [ih]
        simp [List.filter_cons, hl, ha2, signedSum, add_assoc]
      · have hstep : payLineStep (some a) acc l = Except.ok acc := by
          unfold payLineStep
          rw [if_pos hl]
          simp [ha2]
        rw [hstep]
        show t.foldlM (payLineStep (some a)) acc = _
        rw [ih]
        simp [List.filter_cons, hl, ha2]
    · have hstep : payLineStep (some a) acc l = Except.ok acc := by
        unfold payLineStep
        rw [if_neg hl]
      rw [hstep]
      show t.foldlM (payLineStep (some a)) acc = _
      rw [ih]
      simp [List.filter_cons, hl]

theorem foldlM_payMoveStep_some (a : Nat) (ps : List Payment) :
    ∀ acc : List MoveLine × Int,
      ps.foldlM (payMoveStep (some a)) acc
        = Except.ok (acc.1 ++ ps.flatMap (fun p =>
              match p.move with
              | none => []
              | some m => m.lines.filter (fun l =>
                  decide (l.reconciliation = none) && decide (l.account = a))),
            acc.2 + signedSum (ps.flatMap (fun p =>
              match p.move with
              | none => []
              | some m => m.lines.filter (fun l =>
                  decide (l.reconciliation = none) && decide (l.account = a))))) := by
  induction ps with
  | nil =>
    intro acc
    simp only [List.foldlM_nil, List.flatMap_nil, List.append_nil]
    have hz : signedSum ([] : List MoveLine) = 0 := rfl
    rw [hz, add_zero]
    rfl
  | cons p t ih =>
    intro acc
    rw [List.foldlM_cons]
    cases hm : p.move with
    | none =>
      have hstep : payMoveStep (some a) acc p = Except.ok acc := by
        unfold payMoveStep
        rw [hm]
      rw [hstep]
      show t.foldlM (payMoveStep (some a)) acc = _
      rw [ih]
      simp [hm]
    | some mv =>
      have hstep : payMoveStep (some a) acc p
          = Except.ok (acc.1 ++ mv.lines.filter (fun l =>
                decide (l.reconciliation = none) && decide (l.account = a)),
              acc.2 + signedSum (mv.lines.filter (fun l =>
                decide (l.reconciliation = none) && decide (l.account = a)))) := by
        unfold payMoveStep
        rw [hm]
        exact foldlM_payLineStep_some a mv.lines acc
      rw [hstep]
      show t.foldlM (payMoveStep (some a)) _ = _
      rw [ih]
      simp [hm, signedSum_append, add_assoc]

theorem collectPaymentLines_some (a : Nat) (s : Sale) (init : List MoveLine × Int) :
    collectPaymentLines (some a) s init
      = Except.ok (init.1 ++ paymentCandidates a s,
          init.2 + signedSum (paymentCandidates a s)) := by
  unfold collectPaymentLines paymentCandidates
  rw [foldlM_payMoveStep_some]

/-- C3: the reconcile loop body (through which
`WizardSaleReconcile.transition_start` processes every selected sale)
never raises when the party has a receivable account; it reconciles the
whole candidate set — the unreconciled `lines_to_pay` lines of the
sale's invoices plus the unreconciled receivable lines of the payments'
movements — as one group exactly when the set is non-empty and its
signed amount `sum(debit - credit)` is exactly zero, and otherwise
leaves the sale (and so every line's reconciliation state)
unchanged. -/
theorem transition_start_zero_sum (s : Sale) (a : Nat)
    (h : s.party.account_receivable = some a) :
    reconcileSale s
      = Except.ok
          (if candidateLines a s ≠ [] ∧ signedSum (candidateLines a s) = 0
           then (markReconciled s ((candidateLines a s).map MoveLine.lineId),
                 some ((candidateLines a s).map MoveLine.lineId))
           else (s, none))
    ∧ transition_start [s]
      = Except.ok
          [if candidateLines a s ≠ [] ∧ signedSum (candidateLines a s) = 0
           then markReconciled s ((candidateLines a s).map MoveLine.lineId)
           else s] := by
  have hcol : collectPaymentLines (some a) s (collectInvoiceLines s)
      = Except.ok (candidateLines a s, signedSum (candidateLines a s)) := by
    rw [collectInvoiceLines_eq, collectPaymentLines_some]
    unfold candidateLines
    rw [signedSum_append]
  have hrec : reconcileSale s
      = Except.ok
          (if candidateLines a s ≠ [] ∧ signedSum (candidateLines a s) = 0
           then (markReconciled s ((candidateLines a s).map MoveLine.lineId),
                 some ((candidateLines a s).map MoveLine.lineId))
           else (s, none)) := by
    unfold reconcileSale
    rw [h, hcol, except_bind_ok]
    dsimp only
    split_ifs with hc <;> rfl
  refine ⟨hrec, ?_⟩
  unfold transition_start
  rw [List.mapM_cons, List.mapM_nil, hrec, except_map_ok, apply_ite Prod.fst]
  rfl

/-- Closed instance of `transition_start_zero_sum`: the invoice line
(debit 100) and the payment movement line (credit 100) of `recSale`
reconcile as one group. -/
theorem transition_start_zero_sum_witness :
    reconcileSale recSale = Except.ok (markReconciled recSale [1, 2], some [1, 2]) := by
  have h := (transition_start_zero_sum recSale 50 rfl).1
  rw [h]
  rfl

theorem foldlM_payLineStep_none (lines : List MoveLine) :
    ∀ acc : List MoveLine × Int,
      lines.foldlM (payLineStep none) acc
        = if ∀ l ∈ lines, l.reconciliation ≠ none
          then Except.ok acc else Except.error RecError.attributeError := by
  induction lines with
  | nil =>
    intro acc
    rw [if_pos (by intro l hl; exact absurd hl (List.not_mem_nil l))]
    rfl
  | cons l t ih =>
    intro acc
    rw [List.foldlM_cons]
    by_cases hl : l.reconciliation = none
    · have hstep : payLineStep none acc l = Except.error RecError.attributeError := by
        unfold payLineStep
        rw [if_pos hl]
      rw [hstep]
      have hcond : ¬ ∀ x ∈ l :: t, x.reconciliation ≠ none := by
        intro hc
        exact hc l (List.mem_cons_self l t) hl
      rw [if_neg hcond]
      rfl
    · have hstep : payLineStep none acc l = Except.ok acc := by
        unfold payLineStep
        rw [if_neg hl]
      rw [hstep]
      show t.foldlM (payLineStep none) acc = _
      rw [ih]
      by_cases hall : ∀ x ∈ t, x.reconciliation ≠ none
      · rw [if_pos hall, if_pos ?hcons]
        case hcons =>
          intro x hx
          rcases List.mem_cons.mp hx with h1 | h1
          · subst h1
            exact hl
          · exact hall x h1
      · rw [if_neg hall,
          if_neg (fun hc => hall (fun x hx => hc x (List.mem_cons_of_mem l hx)))]

theorem foldlM_payMoveStep_none (ps : List Payment) :
    ∀ acc : List MoveLine × Int,
      ps.foldlM (payMoveStep none) acc
        = if ∀ p ∈ ps, ∀ m, p.move = some m → ∀ l ∈ m.lines, l.reconciliation ≠ none
          then Except.ok acc else Except.error RecError.attributeError := by
  induction ps with
  | nil =>
    intro acc
    rw [if_pos (by intro p hp; exact absurd hp (List.not_mem_nil p))]
    rfl
  | cons p t ih =>
    intro acc
    rw [List.foldlM_cons]
    cases hm : p.move with
    | none =>
      have hstep : payMoveStep none acc p = Except.ok acc := by
        unfold payMoveStep
        rw [hm]
      rw [hstep]
      show t.foldlM (payMoveStep none) acc = _
      rw [ih]
      by_cases hall : ∀ q ∈ t, ∀ m, q.move = some m → ∀ l ∈ m.lines, l.reconciliation ≠ none
      · rw [if_pos hall, if_pos ?hcons]
        case hcons =>
          intro q hq m hqm
          rcases List.mem_cons.mp hq with h1 | h1
          · subst h1
            rw [hm] at hqm
            exact Option.noConfusion hqm
          · exact hall q h1 m hqm
      · rw [if_neg hall,
          if_neg (fun hc => hall (fun q hq => hc q (List.mem_cons_of_mem p hq)))]
    | some mv =>
      have hstep : payMoveStep none acc p = mv.lines.foldlM (payLineStep none) acc := by
        unfold payMoveStep
        rw [hm]
      rw [hstep, foldlM_payLineStep_none]
      by_cases hmv : ∀ l ∈ mv.lines, l.reconciliation ≠ none
      · rw [if_pos hmv]
        show t.foldlM (payMoveStep none) acc = _
        rw [ih]
        by_cases hall : ∀ q ∈ t, ∀ m, q.move = some m → ∀ l ∈ m.lines, l.reconciliation ≠ none
        · rw [if_pos hall, if_pos ?hcons]
          case hcons =>
            intro q hq m hqm
            rcases List.mem_cons.mp hq with h1 | h1
            · subst h1
              rw [hm] at hqm
              cases hqm
              exact hmv
            · exact hall q h1 m hqm
        · rw [if_neg hall,
            if_neg (fun hc => hall (fun q hq => hc q (List.mem_cons_of_mem p hq)))]
      · rw [if_neg hmv]
        rw [if_neg (fun hc => hmv (hc p (List.mem_cons_self p t) mv hm))]
        rfl

/-- C9: the reconcile loop dereferences the receivable account with no
guard.  When the party has none, the loop body completes (with some
`ok` outcome) exactly when no payment movement of the sale holds an
unreconciled line; as soon as one exists the evaluation of
`line.account.id == account.id` dereferences the absent account and the
operation fails with the attribute error — not with
`party_without_account_receivable` or any other error of the module's
taxonomy (the error type of this wizard has no such constructor). -/
theorem reconcile_missing_account (s : Sale)
    (h : s.party.account_receivable = none) :
    ((∃ r, reconcileSale s = Except.ok r) ↔
      ∀ p ∈ s.payments, ∀ m, p.move = some m → ∀ l ∈ m.lines, l.reconciliation ≠ none)
    ∧ ((¬ ∀ p ∈ s.payments, ∀ m, p.move = some m →
          ∀ l ∈ m.lines, l.reconciliation ≠ none) →
        reconcileSale s = Except.error RecError.attributeError) := by
  have hcol : collectPaymentLines none s (collectInvoiceLines s)
      = if ∀ p ∈ s.payments, ∀ m, p.move = some m → ∀ l ∈ m.lines, l.reconciliation ≠ none
        then Except.ok (collectInvoiceLines s)
        else Except.error RecError.attributeError := by
    unfold collectPaymentLines
    rw [foldlM_payMoveStep_none]
  by_cases hall : ∀ p ∈ s.payments, ∀ m, p.move = some m →
      ∀ l ∈ m.lines, l.reconciliation ≠ none
  · rw [if_pos hall] at hcol
    have hrec : ∃ r, reconcileSale s = Except.ok r := by
      unfold reconcileSale
      rw [h, hcol, except_bind_ok]
      split_ifs <;> exact ⟨_, rfl⟩
    exact ⟨⟨fun _ => hall, fun _ => hrec⟩, fun hc => absurd hall hc⟩
  · rw [if_neg hall] at hcol
    have hrec : reconcileSale s = Except.error RecError.attributeError := by
      unfold reconcileSale
      rw [h, hcol]
      rfl
    refine ⟨⟨?_, fun hc => absurd hc hall⟩, fun _ => hrec⟩
    rintro ⟨r, hr⟩
    rw [hrec] at hr
    exact Except.noConfusion hr

/-- Closed instance of `reconcile_missing_account`: on `recSaleNoAcct`
(no receivable account, one unreconciled payment movement line) the
reconcile loop fails with the attribute error. -/
theorem reconcile_missing_account_witness :
    reconcileSale recSaleNoAcct = Except.error RecError.attributeError := by
  apply (reconcile_missing_account recSaleNoAcct rfl).2
  intro hc
  exact hc badPayment (List.mem_singleton.mpr rfl) badMove rfl
    badLine (List.mem_singleton.mpr rfl) rfl

theorem assignNumber_state (n : String) (s : Sale) :
    (assignNumber n s).state = s.state := by
  unfold assignNumber
  split_ifs <;> rfl

theorem createPayment_state (pid today : Nat) (st0 : Statement) (acct : Nat)
    (form : PayForm) (s : Sale) :
    (createPayment pid today st0 acct form s).state = s.state := by
  unfold createPayment
  split_ifs <;> rfl

theorem postInvoices_state (tp : List Nat) (s : Sale) :
    (postInvoices tp s).state = s.state := rfl

theorem phaseAOk_salesAcc (today : Nat) (st : PhaseAState) (sale : Sale) :
    ∃ sale1, (phaseAOk today st sale).salesAcc = st.salesAcc ++ [sale1]
      ∧ sale1.state = sale.state ∧ sale1.is_done = sale.is_done := by
  unfold phaseAOk
  split_ifs
  · exact ⟨_, rfl, rfl, rfl⟩
  · exact ⟨sale, rfl, rfl, rfl⟩

theorem phaseBSale_shape (leaked : Option Invoice)
    (acc : List Sale × List (Nat × Option Nat × Nat)) (sale : Sale)
    (res : List Sale × List (Nat × Option Nat × Nat))
    (h : phaseBSale leaked acc sale = Except.ok res) :
    ∃ P w, res = (acc.1 ++ [{ sale with payments := P }], w) := by
  unfold phaseBSale at h
  cases hf : sale.payments.foldlM (payAttrStep leaked sale) ([], acc.2) with
  | error e =>
    rw [hf] at h
    exact Except.noConfusion h
  | ok rr =>
    rw [hf, except_bind_ok] at h
    exact ⟨rr.1, rr.2, (Except.ok.inj h).symm⟩

theorem workflow_singleton_not_draft (today : Nat) (s : Sale) (r : WfResult)
    (hdr : s.state = SaleState.draft)
    (hok : workflow_to_end today [s] = Except.ok r) :
    ∃ s2, r.sales = [s2] ∧ s2.state ≠ SaleState.draft := by
  have hadv : (advanceSale s).state = SaleState.processing := by
    rw [advanceSale_eq]
    simp [hdr]
  by_cases hoff : s.invoices = [] ∧ s.invoice_method_order = true
  · exfalso
    obtain ⟨s0, _, _, _, heq⟩ := foldlM_phaseA_error today [s]
      ⟨s, List.mem_singleton.mpr rfl, hoff⟩
      { salesAcc := [], writes := [], to_post := [], leaked := none }
    unfold workflow_to_end phaseA at hok
    rw [heq] at hok
    exact Except.noConfusion hok
  · have hA : phaseA today [s]
        = Except.ok (phaseAOk today
            { salesAcc := [], writes := [], to_post := [], leaked := none }
            (advanceSale s)) := by
      unfold phaseA
      rw [List.foldlM_cons,
        phaseASale_ok today { salesAcc := [], writes := [], to_post := [], leaked := none }
          s hoff]
      rfl
    obtain ⟨sale1, hacc, hst1, -⟩ := phaseAOk_salesAcc today
      { salesAcc := [], writes := [], to_post := [], leaked := none } (advanceSale s)
    unfold workflow_to_end at hok
    rw [hA, except_bind_ok] at hok
    have hsales1 :
        (if (phaseAOk today { salesAcc := [], writes := [], to_post := [], leaked := none }
              (advanceSale s)).to_post = []
         then (phaseAOk today { salesAcc := [], writes := [], to_post := [], leaked := none }
              (advanceSale s)).salesAcc
         else (phaseAOk today { salesAcc := [], writes := [], to_post := [], leaked := none }
              (advanceSale s)).salesAcc.map
            (postInvoices (phaseAOk today
              { salesAcc := [], writes := [], to_post := [], leaked := none }
              (advanceSale s)).to_post))
        = [if (phaseAOk today { salesAcc := [], writes := [], to_post := [], leaked := none }
              (advanceSale s)).to_post = []
           then sale1
           else postInvoices (phaseAOk today
              { salesAcc := [], writes := [], to_post := [], leaked := none }
              (advanceSale s)).to_post sale1] := by
      rw [hacc]
      split_ifs <;> simp
    rw [hsales1] at hok
    dsimp only at hok
    set sale2 := if (phaseAOk today
          { salesAcc := [], writes := [], to_post := [], leaked := none }
          (advanceSale s)).to_post = []
        then sale1
        else postInvoices (phaseAOk today
          { salesAcc := [], writes := [], to_post := [], leaked := none }
          (advanceSale s)).to_post sale1 with hs2def
    have hst2 : sale2.state = SaleState.processing := by
      rw [hs2def]
      split_ifs
      · rw [hst1, hadv]
      · rw [postInvoices_state, hst1, hadv]
    cases hB : phaseB (phaseAOk today
        { salesAcc := [], writes := [], to_post := [], leaked := none }
        (advanceSale s)).leaked [sale2] with
    | error e =>
      rw [hB] at hok
      exact Except.noConfusion hok
    | ok r0 =>
      rw [hB, except_bind_ok] at hok
      have hr := Except.ok.inj hok
      have hBs : ∃ res, phaseBSale (phaseAOk today
          { salesAcc := [], writes := [], to_post := [], leaked := none }
          (advanceSale s)).leaked ([], []) sale2 = Except.ok res ∧ res = r0 := by
        unfold phaseB at hB
        rw [List.foldlM_cons] at hB
        cases hbs : phaseBSale (phaseAOk today
            { salesAcc := [], writes := [], to_post := [], leaked := none }
            (advanceSale s)).leaked ([], []) sale2 with
        | error e =>
          rw [hbs] at hB
          exact Except.noConfusion hB
        | ok res =>
          rw [hbs] at hB
          exact ⟨res, rfl, Except.ok.inj hB⟩
      obtain ⟨res, hbs, hres0⟩ := hBs
      obtain ⟨P, w, hshape⟩ := phaseBSale_shape _ ([], []) sale2 res hbs
      have hr0 : r0 = ([{ sale2 with payments := P }], w) := by
        rw [← hres0, hshape]
        rfl
      refine ⟨if ({ sale2 with payments := P } : Sale).is_done = true ∧
          ({ sale2 with payments := P } : Sale).state = SaleState.processing
        then { { sale2 with payments := P } with state := SaleState.done }
        else { sale2 with payments := P }, ?_, ?_⟩
      · rw [← hr, hr0]
        rfl
      · split_ifs
        · intro hc
          exact SaleState.noConfusion hc
        · show ¬ sale2.state = SaleState.draft
          rw [hst2]
          intro hc
          exact SaleState.noConfusion hc

theorem payDecide_differs (today : Nat) (s2 : Sale)
    (h1 : totalDiffersPaid s2 = true) :
    payDecide today s2 = Except.ok { next := "start", sale := s2, ranWorkflow := false } := by
  unfold payDecide
  rw [if_pos h1]

theorem payDecide_equal_nondraft (today : Nat) (s2 : Sale)
    (h1 : totalDiffersPaid s2 = false) (h2 : s2.state ≠ SaleState.draft) :
    payDecide today s2 = Except.ok { next := "end", sale := s2, ranWorkflow := false } := by
  unfold payDecide
  rw [if_neg (by rw [h1]; exact Bool.false_ne_true), if_pos h2]

theorem payDecide_draft (today : Nat) (s2 : Sale)
    (h1 : totalDiffersPaid s2 = false) (h2 : s2.state = SaleState.draft) :
    ∀ res, payDecide today s2 = Except.ok res →
      res.ranWorkflow = true ∧ res.next = "end" ∧
      ∃ r, workflow_to_end today [{ s2 with description := s2.reference }] = Except.ok r ∧
        res.sale = r.sales.headD { s2 with description := s2.reference } := by
  intro res h
  unfold payDecide at h
  rw [if_neg (by rw [h1]; exact Bool.false_ne_true), if_neg (fun hc => hc h2)] at h
  cases hw : workflow_to_end today [{ s2 with description := s2.reference }] with
  | error e =>
    rw [hw] at h
    exact Except.noConfusion h
  | ok r =>
    rw [hw] at h
    have hres := Except.ok.inj h
    rw [← hres]
    exact ⟨rfl, rfl, r, rfl, rfl⟩

theorem transition_pay_ran_not_draft (today : Nat) (newNumber : String) (newPid : Nat)
    (statements : List Statement) (form : PayForm) (sale0 : Sale) (res : PayResult)
    (h : transition_pay_ today newNumber newPid statements form sale0 = Except.ok res)
    (hran : res.ranWorkflow = true) :
    res.sale.state ≠ SaleState.draft := by
  unfold transition_pay_ at h
  cases hd : draftStatements statements form.journal with
  | nil =>
    rw [hd] at h
    exact Except.noConfusion h
  | cons st0 rest =>
    rw [hd] at h
    have h1 : payWithAccount today newPid st0 form (assignNumber newNumber sale0)
        = Except.ok res := h
    unfold payWithAccount at h1
    cases hacc : (assignNumber newNumber sale0).party.account_receivable with
    | none =>
      rw [hacc] at h1
      exact Except.noConfusion h1
    | some acct =>
      rw [hacc] at h1
      have h2 : payDecide today
          (createPayment newPid today st0 acct form (assignNumber newNumber sale0))
          = Except.ok res := h1
      by_cases hdif : totalDiffersPaid
          (createPayment newPid today st0 acct form (assignNumber newNumber sale0)) = true
      · rw [payDecide_differs today _ hdif] at h2
        rw [← Except.ok.inj h2] at hran
        exact Bool.noConfusion hran
      · rw [Bool.not_eq_true] at hdif
        by_cases hstate : (createPayment newPid today st0 acct form
            (assignNumber newNumber sale0)).state = SaleState.draft
        · obtain ⟨-, -, r, hw, hsale⟩ := payDecide_draft today _ hdif hstate res h2
          set base := createPayment newPid today st0 acct form (assignNumber newNumber sale0)
            with hbase
          obtain ⟨s2, hs2, hnd⟩ := workflow_singleton_not_draft today
            { base with description := base.reference } r (by exact hstate) hw
          rw [hsale, hs2]
          exact hnd
        · rw [payDecide_equal_nondraft today _ hdif hstate] at h2
          rw [← Except.ok.inj h2] at hran
          exact Bool.noConfusion hran

theorem transition_pay_nondraft_no_run (today : Nat) (newNumber : String) (newPid : Nat)
    (statements : List Statement) (form : PayForm) (s : Sale)
    (hs : s.state ≠ SaleState.draft) (res : PayResult)
    (h : transition_pay_ today newNumber newPid statements form s = Except.ok res) :
    res.ranWorkflow = false := by
  unfold transition_pay_ at h
  cases hd : draftStatements statements form.journal with
  | nil =>
    rw [hd] at h
    exact Except.noConfusion h
  | cons st0 rest =>
    rw [hd] at h
    have h1 : payWithAccount today newPid st0 form (assignNumber newNumber s)
        = Except.ok res := h
    unfold payWithAccount at h1
    cases hacc : (assignNumber newNumber s).party.account_receivable with
    | none =>
      rw [hacc] at h1
      exact Except.noConfusion h1
    | some acct =>
      rw [hacc] at h1
      have h2 : payDecide today
          (createPayment newPid today st0 acct form (assignNumber newNumber s))
          = Except.ok res := h1
      have hst2 : (createPayment newPid today st0 acct form
          (assignNumber newNumber s)).state ≠ SaleState.draft := by
        rw [createPayment_state, assignNumber_state]
        exact hs
      by_cases hdif : totalDiffersPaid
          (createPayment newPid today st0 acct form (assignNumber newNumber s)) = true
      · rw [payDecide_differs today _ hdif] at h2
        rw [← Except.ok.inj h2]
      · rw [Bool.not_eq_true] at hdif
        rw [payDecide_equal_nondraft today _ hdif hst2] at h2
        rw [← Except.ok.inj h2]

/-- C5: after the optional payment creation, the `pay_` transition
returns to `start` when total and paid amounts differ; ends without
settlement when the sale is no longer draft; runs settlement (exactly
when the amounts agree and the sale is draft), after which the sale is
no longer in the draft state — so any later `pay_` invocation on that
sale ends without running settlement again. -/
theorem transition_pay_spec (today : Nat) (newNumber : String) (newPid : Nat)
    (statements : List Statement) (form : PayForm) (sale0 : Sale)
    (st0 : Statement) (rest : List Statement) (a : Nat) (s2 : Sale)
    (hst : draftStatements statements form.journal = st0 :: rest)
    (hacct : (assignNumber newNumber sale0).party.account_receivable = some a)
    (hs2 : s2 = createPayment newPid today st0 a form (assignNumber newNumber sale0)) :
    (totalDiffersPaid s2 = true →
      transition_pay_ today newNumber newPid statements form sale0
        = Except.ok { next := "start", sale := s2, ranWorkflow := false })
    ∧ (totalDiffersPaid s2 = false → s2.state ≠ SaleState.draft →
        transition_pay_ today newNumber newPid statements form sale0
          = Except.ok { next := "end", sale := s2, ranWorkflow := false })
    ∧ (totalDiffersPaid s2 = false → s2.state = SaleState.draft →
        ∀ res, transition_pay_ today newNumber newPid statements form sale0
            = Except.ok res →
          res.ranWorkflow = true ∧ res.next = "end" ∧
            res.sale.state ≠ SaleState.draft)
    ∧ (∀ res, transition_pay_ today newNumber newPid statements form sale0
          = Except.ok res → res.ranWorkflow = true →
        ∀ (today2 : Nat) (nn2 : String) (np2 : Nat) (stmts2 : List Statement)
          (form2 : PayForm) (res2 : PayResult),
          transition_pay_ today2 nn2 np2 stmts2 form2 res.sale = Except.ok res2 →
            res2.ranWorkflow = false) := by
  have hTP : transition_pay_ today newNumber newPid statements form sale0
      = payDecide today s2 := by
    unfold transition_pay_
    rw [hst]
    have hmid : payWithAccount today newPid st0 form (assignNumber newNumber sale0)
        = payDecide today s2 := by
      unfold payWithAccount
      rw [hacct, hs2]
    exact hmid
  refine ⟨?_, ?_, ?_, ?_⟩
  · intro h1
    rw [hTP]
    exact payDecide_differs today s2 h1
  · intro h1 h2
    rw [hTP]
    exact payDecide_equal_nondraft today s2 h1 h2
  · intro h1 h2 res hres
    rw [hTP] at hres
    obtain ⟨hran, hnext, r, hw, hsale⟩ := payDecide_draft today s2 h1 h2 res hres
    refine ⟨hran, hnext, ?_⟩
    obtain ⟨sx, hsx, hnd⟩ := workflow_singleton_not_draft today
      { s2 with description := s2.reference } r h2 hw
    rw [hsale, hsx]
    exact hnd
  · intro res hres hran today2 nn2 np2 stmts2 form2 res2 hres2
    have hnd := transition_pay_ran_not_draft today newNumber newPid statements form
      sale0 res hres hran
    exact transition_pay_nondraft_no_run today2 nn2 np2 stmts2 form2 res.sale hnd
      res2 hres2

/-- Closed instance of `transition_pay_spec` (the spec's scenario B):
paying 30 on a 100 total with 40 already paid leaves the amounts
unequal, so the wizard returns to `start` without settlement. -/
theorem transition_pay_spec_witness :
    transition_pay_ 5 "N8" 401 stmtsEx formEx paySale
      = Except.ok
          { next := "start",
            sale := createPayment 401 5 stmt1 70 formEx (assignNumber "N8" paySale),
            ranWorkflow := false } :=
  (transition_pay_spec 5 "N8" 401 stmtsEx formEx paySale stmt1 [] 70
      (createPayment 401 5 stmt1 70 formEx (assignNumber "N8" paySale))
      rfl rfl rfl).1 (by decide)

/-- Closed instance of `workflow_idempotent_on_done` at `settledSale`. -/
theorem workflow_idempotent_witness :
    ∃ pw, workflow_to_end 0 [settledSale]
        = Except.ok { sales := [settledSale], invoiceWrites := [], invoicePosts := [],
                      paymentWrites := pw }
      ∧ ∀ e ∈ pw, ∃ s ∈ [settledSale], ∃ p ∈ s.payments,
          e = (p.pid, p.invoice, p.party) := by
  apply workflow_idempotent_on_done 0 [settledSale] (by decide) (by decide) (by decide)
  intro s hs p hp
  rw [List.mem_singleton] at hs
  subst hs
  have hps : settledSale.payments
      = [{ pid := 200, amount := 100, party := 1, invoice := some 20 }] := rfl
  rw [hps, List.mem_singleton] at hp
  subst hp
  exact ⟨true, rfl⟩

/-- C10: `default_start` produces defaults only when a device resolves
from the sale or the user.  With no resolvable device, a non-privileged
caller is stopped by the `not_sale_device` guard, while the privileged
system user (id 0) bypasses the guard only to hit the
`sale_device.journal` dereference on the absent device — in neither
case are defaults produced. -/
theorem default_start_requires_device (user : User) (sale : Sale)
    (h1 : sale.sale_device = none) (h2 : user.sale_device = none) :
    (∀ d, default_start user sale ≠ Except.ok d)
    ∧ (user.uid = 0 → default_start user sale = Except.error StartError.attributeError)
    ∧ (user.uid ≠ 0 → default_start user sale = Except.error StartError.notSaleDevice) := by
  have hdev : resolveDevice user sale = none := by
    unfold resolveDevice
    rw [h1]
    exact h2
  by_cases hu : user.uid = 0
  · have heq : default_start user sale = Except.error StartError.attributeError := by
      unfold default_start
      rw [hdev, if_neg (fun hc => hc.1 hu)]
    refine ⟨?_, fun _ => heq, fun hc => absurd hu hc⟩
    intro d hc
    rw [heq] at hc
    exact Except.noConfusion hc
  · have heq : default_start user sale = Except.error StartError.notSaleDevice := by
      unfold default_start
      rw [hdev, if_pos ⟨hu, rfl⟩]
    refine ⟨?_, fun hc => absurd hc hu, fun _ => heq⟩
    intro d hc
    rw [heq] at hc
    exact Except.noConfusion hc

/-- Closed instance of `default_start_requires_device`: the privileged
system user with no device hits the dereference error, and no defaults
are produced. -/
theorem default_start_requires_device_witness :
    default_start { uid := 0 } paySale = Except.error StartError.attributeError :=
  (default_start_requires_device { uid := 0 } paySale rfl rfl).2.1 rfl

end SalePayment
